import Mathlib

/-!
Shallow embedding of the ERPNext knowledge-graph builder
(`src/integrations/knowledge_graph_builder.py`).

The builder maintains a NetworkX `MultiDiGraph`; we model it as an
association list of nodes (node id paired with its attribute map, in
insertion order) plus an append-only list of directed attributed edges.
Attribute values are Python scalars (strings, ints, booleans), modelled
by `PyVal`.  NetworkX semantics embedded here:
`add_node` upserts (merging attributes onto an existing node),
`add_edge` always appends a fresh parallel edge and implicitly creates
missing endpoint nodes, and `degree_centrality` divides each node's
multi-degree (in + out, counting every parallel edge) by `N - 1`.
-/

namespace ERPNextKG

/-- A Python scalar attribute value as stored on nodes, edges and records. -/
inductive PyVal where
  | str (s : String)
  | int (n : Int)
  | bool (b : Bool)
deriving DecidableEq, Repr

/-- Python truthiness of a scalar value. -/
def PyVal.truthy : PyVal → Bool
  | .str s => s != ""
  | .int n => n != 0
  | .bool b => b

/-- Python `str(value)` rendering, used by f-strings and `str(...)` casts. -/
def PyVal.pyStr : PyVal → String
  | .str s => s
  | .int n => toString n
  | .bool b => if b then "True" else "False"

/-- A string-keyed attribute map (a Python dict of scalars), in insertion order. -/
abbrev AttrMap := List (String × PyVal)

/-- A sampled document record: a string-keyed map of scalar values. -/
abbrev DocData := AttrMap

/-- Dict lookup: `m.get(k)`, returning the first binding of `k`. -/
def getAttr (m : AttrMap) (k : String) : Option PyVal :=
  match m with
  | [] => none
  | p :: ps => if p.1 == k then some p.2 else getAttr ps k

/-- Dict assignment `m[k] = v`: overwrite the binding in place if the key
exists (keeping its position, as Python dicts do), else append. -/
def setAttr (m : AttrMap) (k : String) (v : PyVal) : AttrMap :=
  match m with
  | [] => [(k, v)]
  | p :: ps => if p.1 == k then (k, v) :: ps else p :: setAttr ps k v

/-- Dict `m.update(upd)`: apply each binding of `upd` in order. -/
def updateAttrs (m : AttrMap) (upd : AttrMap) : AttrMap :=
  upd.foldl (fun acc kv => setAttr acc kv.1 kv.2) m

/-- A directed attributed edge of the multigraph. -/
structure Edge where
  src : String
  tgt : String
  attrs : AttrMap
deriving DecidableEq, Repr

/-- The in-memory multigraph: nodes (with attribute maps, in insertion
order) and an append-only list of parallel-tolerant directed edges. -/
structure Graph where
  nodes : List (String × AttrMap)
  edges : List Edge
deriving DecidableEq, Repr

/-- The empty graph created by the builder's constructor. -/
def emptyGraph : Graph := ⟨[], []⟩

/-- NetworkX `has_node`. -/
def Graph.hasNode (g : Graph) (n : String) : Bool :=
  g.nodes.any (fun p => p.1 == n)

/-- Upsert into the node association list: merge attributes onto an
existing node (keeping its position) or append a new node. -/
def addNodeList (l : List (String × AttrMap)) (n : String) (attrs : AttrMap) :
    List (String × AttrMap) :=
  match l with
  | [] => [(n, attrs)]
  | p :: ps => if p.1 == n then (p.1, updateAttrs p.2 attrs) :: ps
               else p :: addNodeList ps n attrs

/-- NetworkX `add_node(n, **attrs)`: upsert — merge attributes onto an
existing node (keeping its position) or append a new node. -/
def Graph.addNode (g : Graph) (n : String) (attrs : AttrMap) : Graph :=
  ⟨addNodeList g.nodes n attrs, g.edges⟩

/-- Keep an existing node untouched, or append a bare one. -/
def ensureList (l : List (String × AttrMap)) (n : String) : List (String × AttrMap) :=
  match l with
  | [] => [(n, [])]
  | p :: ps => if p.1 == n then p :: ps else p :: ensureList ps n

/-- NetworkX implicit node creation on `add_edge`: add a bare node if absent. -/
def Graph.ensureNode (g : Graph) (n : String) : Graph :=
  ⟨ensureList g.nodes n, g.edges⟩

/-- NetworkX `MultiDiGraph.add_edge(u, v, **attrs)`: create missing
endpoints, then append a new parallel edge (never deduplicated). -/
def Graph.addEdge (g : Graph) (u v : String) (attrs : AttrMap) : Graph :=
  let g1 := (g.ensureNode u).ensureNode v
  ⟨g1.nodes, g1.edges ++ [⟨u, v, attrs⟩]⟩

/-- NetworkX `MultiDiGraph` out-degree: every parallel edge counts. -/
def Graph.outDegree (g : Graph) (n : String) : Nat :=
  (g.edges.filter (fun e => e.src == n)).length

/-- NetworkX `MultiDiGraph` in-degree: every parallel edge counts. -/
def Graph.inDegree (g : Graph) (n : String) : Nat :=
  (g.edges.filter (fun e => e.tgt == n)).length

/-- A schema field as returned by the external data source:
its `fieldtype` and its `options` entry (`""` models a missing or
empty/falsy options value). -/
structure SchemaField where
  fieldtype : String
  options : String
deriving DecidableEq, Repr

/-- A DocType schema as returned by `get_doctype_schema`. -/
structure Schema where
  fields : List SchemaField
  module : String
  custom : Int
  is_virtual : Int
  has_web_view : Int
  is_submittable : Int
deriving DecidableEq, Repr

/-- The external ERPNext connector (`ERPNextConnector`), reduced to the
capabilities the builder consumes: the connection check, the DocType
listing, per-type schema fetch (`none` models a failed fetch or an
empty/falsy schema), and bounded record sampling. -/
structure Connector where
  connected : Bool
  doctypes : List String
  getSchema : String → Option Schema
  sampleDocs : String → Nat → List DocData

/-- The fixed `known_relationships` lookup table from the builder's
constructor. -/
def known_relationships : List (String × List String) :=
  [("Customer", ["Sales Order", "Sales Invoice", "Quotation", "Opportunity"]),
   ("Supplier", ["Purchase Order", "Purchase Invoice", "Request for Quotation"]),
   ("Item", ["Sales Order Item", "Purchase Order Item", "Stock Entry"]),
   ("Project", ["Task", "Timesheet", "Project Update"]),
   ("Employee", ["Task", "Timesheet", "Leave Application", "Expense Claim"]),
   ("Sales Order", ["Sales Invoice", "Delivery Note", "Sales Order Item"]),
   ("Purchase Order", ["Purchase Invoice", "Purchase Receipt", "Purchase Order Item"])]

/-- Lookup in the static table (`doctype in self.known_relationships`). -/
def lookupKnown (doctype : String) : Option (List String) :=
  (known_relationships.find? (fun p => p.1 == doctype)).map (fun p => p.2)

/-- The result record of `discover_doctype_relationships`. -/
structure Relationships where
  links_to : List String
  linked_from : List String
  child_tables : List String
deriving DecidableEq, Repr

/-- Method `discover_doctype_relationships(doctype)`: on a failed or empty
schema fetch the function returns the freshly initialised empty record
(the body returns early before the static-table step); otherwise each
`Link` field with a truthy `options` contributes to `links_to`, each
`Table` field with a truthy `options` contributes to `child_tables`,
and then, since `doctype` may be in `known_relationships`, that table's
associations are appended to `links_to`. -/
def discover_doctype_relationships (conn : Connector) (doctype : String) : Relationships :=
  match conn.getSchema doctype with
  | none => ⟨[], [], []⟩
  | some schema =>
    let links := schema.fields.filterMap (fun f =>
      if f.fieldtype == "Link" && f.options != "" then some f.options else none)
    let childs := schema.fields.filterMap (fun f =>
      if f.fieldtype == "Table" && f.options != "" then some f.options else none)
    let links :=
      match lookupKnown doctype with
      | some ks => links ++ ks
      | none => links
    ⟨links, [], childs⟩

/-- Method `add_doctype_node(doctype, metadata)`: on a successful schema fetch,
merge the schema-derived annotations into `metadata`, then upsert the
type-node. -/
def add_doctype_node (conn : Connector) (g : Graph) (doctype : String)
    (metadata : AttrMap) : Graph :=
  let metadata :=
    match conn.getSchema doctype with
    | some schema =>
      updateAttrs metadata
        [("node_type", .str "doctype"),
         ("module", .str schema.module),
         ("is_custom", .int schema.custom),
         ("is_virtual", .int schema.is_virtual),
         ("field_count", .int (schema.fields.length : Int)),
         ("has_web_view", .bool (schema.has_web_view != 0)),
         ("is_submittable", .bool (schema.is_submittable != 0))]
    | none => metadata
  g.addNode doctype metadata

/-- Method `add_document_node(doctype, doc_name, doc_data)`: build the instance
node's metadata, upsert the node `"{doctype}::{doc_name}"`, and connect
it to its DocType with an edge carrying `relationship='instance_of'`
(note the attribute key is `relationship`).  Returns the new graph and
the node id. -/
def add_document_node (g : Graph) (doctype : String) (doc_name : PyVal)
    (doc_data : DocData) : Graph × String :=
  let node_id := doctype ++ "::" ++ doc_name.pyStr
  let metadata : AttrMap :=
    [("node_type", .str "document"),
     ("doctype", .str doctype),
     ("name", doc_name),
     ("status", (getAttr doc_data "status").getD (.str "Unknown")),
     ("docstatus", (getAttr doc_data "docstatus").getD (.int 0)),
     ("creation", (getAttr doc_data "creation").getD (.str "")),
     ("modified", (getAttr doc_data "modified").getD (.str ""))]
  let metadata := ["customer", "supplier", "company", "item_code", "project"].foldl
    (fun m f =>
      match getAttr doc_data f with
      | some v => if v.truthy then setAttr m f (.str v.pyStr) else m
      | none => m) metadata
  let g1 := (g.addNode node_id metadata).addEdge node_id doctype
    [("relationship", .str "instance_of")]
  (g1, node_id)

/-- Method `add_relationship_edge(from_node, to_node, relationship_type,
metadata)`: stamp `relationship_type` and `created_at` onto the metadata
and append the edge (`now` stands for `datetime.now().isoformat()`). -/
def add_relationship_edge (g : Graph) (from_node to_node relationship_type : String)
    (metadata : AttrMap) (now : String) : Graph :=
  let metadata := setAttr metadata "relationship_type" (.str relationship_type)
  let metadata := setAttr metadata "created_at" (.str now)
  g.addEdge from_node to_node metadata

/-- The result dict of `build_doctype_schema_graph`. -/
structure BuildResult where
  doctypes_processed : Nat
  relationships_found : Nat
  errors : List String
  error : Option String
deriving DecidableEq, Repr

/-- First pass of `build_doctype_schema_graph`: add a type-node for every
listed DocType. -/
def schemaNodePass (conn : Connector) (g : Graph) (doctypes : List String) : Graph :=
  doctypes.foldl (fun g dt => add_doctype_node conn g dt []) g

/-- One inner loop of the edge pass: for each resolved target, add an
edge of the given kind from `dt` only when the target is already a node
(`if self.graph.has_node(linked_doctype)`), counting additions. -/
def relTargetFold (now dt t : String) (acc : Graph × Nat) (targets : List String) :
    Graph × Nat :=
  targets.foldl (fun acc ld =>
    if acc.1.hasNode ld then
      (add_relationship_edge acc.1 dt ld t [] now, acc.2 + 1)
    else acc) acc

/-- One DocType's step of the edge pass: re-resolve its relationships,
then run the `links_to` loop followed by the `has_child_table` loop. -/
def schemaEdgeStep (conn : Connector) (now : String) (acc : Graph × Nat)
    (dt : String) : Graph × Nat :=
  let rels := discover_doctype_relationships conn dt
  relTargetFold now dt "has_child_table"
    (relTargetFold now dt "links_to" acc rels.links_to) rels.child_tables

/-- Second pass of `build_doctype_schema_graph`: for every listed DocType,
re-resolve its relationships, and for each `links_to` / `child_tables`
target add a `links_to` / `has_child_table` edge only when the target is
already a node; also count the relationships added. -/
def schemaEdgePass (conn : Connector) (now : String) (g : Graph)
    (doctypes : List String) : Graph × Nat :=
  doctypes.foldl (schemaEdgeStep conn now) (g, 0)

/-- Method `build_doctype_schema_graph()`: abort with a connection-failure error
when the connectivity check fails; abort with a distinct error when the
type listing is empty; otherwise run the node pass then the edge pass.
In this embedding the per-item bodies cannot raise, so the `errors` list
stays empty and every listed DocType is processed. -/
def build_doctype_schema_graph (conn : Connector) (now : String) (g : Graph) :
    Graph × BuildResult :=
  if !conn.connected then
    (g, ⟨0, 0, [], some "Could not connect to ERPNext"⟩)
  else if conn.doctypes.isEmpty then
    (g, ⟨0, 0, [], some "No DocTypes found"⟩)
  else
    let g1 := schemaNodePass conn g conn.doctypes
    let r2 := schemaEdgePass conn now g1 conn.doctypes
    (r2.1, ⟨conn.doctypes.length, r2.2, [], none⟩)

/-- The result dict of `build_document_relationship_graph`. -/
structure DocResult where
  doctype : String
  documents_processed : Nat
  relationships_found : Nat
  errors : List String
  error : Option String
deriving DecidableEq, Repr

/-- The guard `if field_value and isinstance(field_value, str)` of the
instance-level reference scan: a truthy string. -/
def fieldRefCandidate : PyVal → Bool
  | .str s => s != ""
  | .int _ => false
  | .bool _ => false

/-- One record's step of the node phase: `doc.get('name')` must be
truthy, then `add_document_node` runs and the `(node_id, doc)` pair is
recorded. -/
def docNodeStep (doctype : String) (acc : Graph × List (String × DocData))
    (doc : DocData) : Graph × List (String × DocData) :=
  match getAttr doc "name" with
  | some v =>
    if v.truthy then
      let r := add_document_node acc.1 doctype v doc
      (r.1, acc.2 ++ [(r.2, doc)])
    else acc
  | none => acc

/-- First phase of `build_document_relationship_graph`: add an instance
node for every sampled record with a truthy `name`, accumulating
`(node_id, doc)` pairs in order. -/
def docNodePass (doctype : String) (g : Graph) (documents : List DocData) :
    Graph × List (String × DocData) :=
  documents.foldl (docNodeStep doctype) (g, [])

/-- Innermost loop of the reference scan: for one candidate field value
of node `nid`, compare against every other node's record `name` and add
a `references_<field>` edge on a match. -/
def docRefInner (now nid fname : String) (fval : PyVal)
    (document_nodes : List (String × DocData)) (acc : Graph × Nat) : Graph × Nat :=
  document_nodes.foldl (fun acc ond =>
    if ond.1 != nid && (getAttr ond.2 "name" == some fval) then
      (add_relationship_edge acc.1 nid ond.1 ("references_" ++ fname) [] now,
       acc.2 + 1)
    else acc) acc

/-- Middle loop of the reference scan: iterate one record's fields,
scanning only truthy string values. -/
def docRefFields (now : String) (document_nodes : List (String × DocData))
    (nd : String × DocData) (acc : Graph × Nat) : Graph × Nat :=
  nd.2.foldl (fun acc fv =>
    if fieldRefCandidate fv.2 then docRefInner now nd.1 fv.1 fv.2 document_nodes acc
    else acc) acc

/-- Second phase of `build_document_relationship_graph`: for every node's
record, for every truthy string field value, add a `references_<field>`
edge to every other node whose record's `name` equals that value; also
count the relationships added. -/
def docRefPass (now : String) (g : Graph)
    (document_nodes : List (String × DocData)) : Graph × Nat :=
  document_nodes.foldl (fun acc nd => docRefFields now document_nodes nd acc) (g, 0)

/-- The `(node_id, doc)` list the node phase accumulates: one entry per
sampled record with a truthy `name`. -/
def docNodes (doctype : String) (documents : List DocData) :
    List (String × DocData) :=
  documents.filterMap (fun doc =>
    match getAttr doc "name" with
    | some v => if v.truthy then some (doctype ++ "::" ++ v.pyStr, doc) else none
    | none => none)

/-- Method `build_document_relationship_graph(doctype, limit)`: report when the
sample is empty; otherwise run the node phase then the reference phase. -/
def build_document_relationship_graph (conn : Connector) (doctype : String)
    (limit : Nat) (now : String) (g : Graph) : Graph × DocResult :=
  let documents := conn.sampleDocs doctype limit
  if documents.isEmpty then
    (g, ⟨doctype, 0, 0, [], some ("No documents found for " ++ doctype)⟩)
  else
    let r1 := docNodePass doctype g documents
    let r2 := docRefPass now r1.1 r1.2
    (r2.1, ⟨doctype, r1.2.length, r2.2, [], none⟩)

/-- One histogram increment: bump the entry for `k` in place, or append a
fresh entry with count 1 (Python `d[k] = d.get(k, 0) + 1`). -/
def histAdd (h : List (PyVal × Nat)) (k : PyVal) : List (PyVal × Nat) :=
  match h with
  | [] => [(k, 1)]
  | p :: ps => if p.1 == k then (p.1, p.2 + 1) :: ps else p :: histAdd ps k

/-- Read a histogram entry (0 when the key is absent). -/
def histCount (h : List (PyVal × Nat)) (k : PyVal) : Nat :=
  match h with
  | [] => 0
  | p :: ps => if p.1 == k then p.2 else histCount ps k

/-- The histogram key of an edge in `get_graph_statistics`:
`data.get('relationship_type', 'unknown')`. -/
def relTypeKey (e : Edge) : PyVal :=
  (getAttr e.attrs "relationship_type").getD (.str "unknown")

/-- The histogram key of a node in `get_graph_statistics`:
`data.get('node_type', 'unknown')`. -/
def nodeTypeKey (p : String × AttrMap) : PyVal :=
  (getAttr p.2 "node_type").getD (.str "unknown")

/-- NetworkX `degree_centrality`: every node of a one-node (or empty)
graph scores 1; otherwise each node scores its multigraph degree
(in + out, counting every parallel edge) times `1 / (N - 1)`. -/
def degree_centrality (g : Graph) : List (String × ℚ) :=
  if g.nodes.length ≤ 1 then g.nodes.map (fun p => (p.1, (1 : ℚ)))
  else g.nodes.map (fun p =>
    (p.1, ((g.outDegree p.1 + g.inDegree p.1 : Nat) : ℚ)
            * (1 / ((g.nodes.length : ℚ) - 1))))

/-- Insert one scored node into a descending list, after any earlier
entry with an equal or larger score (matching Python's stable sort). -/
def insertDesc (x : String × ℚ) : List (String × ℚ) → List (String × ℚ)
  | [] => [x]
  | y :: ys => if y.2 < x.2 then x :: y :: ys else y :: insertDesc x ys

/-- Python `sorted(..., key=lambda x: x[1], reverse=True)`: a stable
descending sort by score. -/
def sortDesc (l : List (String × ℚ)) : List (String × ℚ) :=
  l.foldl (fun acc x => insertDesc x acc) []

/-- The result dict of `get_graph_statistics`. -/
structure Stats where
  nodes : Nat
  edges : Nat
  node_types : List (PyVal × Nat)
  relationship_types : List (PyVal × Nat)
  most_connected : List (String × ℚ)
deriving Repr

/-- Method `get_graph_statistics()`: node/edge counts, the two tag histograms
(defaulting missing tags to `'unknown'`), and the ten most connected
nodes by NetworkX degree centrality, sorted descending. -/
def get_graph_statistics (g : Graph) : Stats :=
  ⟨g.nodes.length,
   g.edges.length,
   g.nodes.foldl (fun h p => histAdd h (nodeTypeKey p)) [],
   g.edges.foldl (fun h e => histAdd h (relTypeKey e)) [],
   (sortDesc (degree_centrality g)).take 10⟩

/-- Method `export_graph(format)`: the timestamped target path is fixed first;
the three supported formats serialise to it, and any other format raises
`ValueError(f"Unsupported format: {format}")` before anything is
written.  The pure result is the written path or the raised error. -/
def export_graph (g : Graph) (output_dir timestamp format : String) :
    Except String String :=
  let filename := "erpnext_knowledge_graph_" ++ timestamp ++ "." ++ format
  let filepath := output_dir ++ "/" ++ filename
  if format == "graphml" then .ok filepath
  else if format == "json" then .ok filepath
  else if format == "gexf" then .ok filepath
  else .error ("Unsupported format: " ++ format)

/-- Modelled from the spec: "standard normalized degree centrality over
the underlying simple-graph projection of the multigraph — multi-edges
between the same pair count once".  Distinct ordered endpoint pairs are
counted once each, then divided by `N - 1`. -/
def simpleProjectionCentrality (g : Graph) (n : String) : ℚ :=
  let pairs := (g.edges.map (fun e => (e.src, e.tgt))).dedup
  (((pairs.filter (fun p => p.1 == n)).length
      + (pairs.filter (fun p => p.2 == n)).length : Nat) : ℚ)
    / ((g.nodes.length : ℚ) - 1)

/-- One invocation of a builder build procedure, for quantifying over
graphs built through the builder's operations. -/
inductive BuildStep where
  | schemaBuild (conn : Connector) (now : String)
  | documentBuild (conn : Connector) (doctype : String) (limit : Nat) (now : String)

/-- Apply one build procedure to the current graph. -/
def runStep (g : Graph) : BuildStep → Graph
  | .schemaBuild conn now => (build_doctype_schema_graph conn now g).1
  | .documentBuild conn doctype limit now =>
      (build_document_relationship_graph conn doctype limit now g).1

/-- A graph built by a sequence of builder build procedures starting from
the constructor's fresh graph. -/
def runSteps (steps : List BuildStep) : Graph :=
  steps.foldl runStep emptyGraph

/-- Classification of every edge the builder's build procedures create:
either an `instance_of` edge (its kind stored under the `relationship`
attribute key, no `relationship_type` key) or a typed relationship edge
(its kind stored under `relationship_type`, drawn from the three kind
families the builds use, and no `relationship` key). -/
def edgeOk (e : Edge) : Prop :=
  (getAttr e.attrs "relationship_type" = none ∧
    getAttr e.attrs "relationship" = some (PyVal.str "instance_of"))
  ∨ (getAttr e.attrs "relationship" = none ∧
      ∃ t, getAttr e.attrs "relationship_type" = some (PyVal.str t) ∧
        (t = "links_to" ∨ t = "has_child_table" ∨ ∃ f, t = "references_" ++ f))

/-- All edges of a graph satisfy the build-edge classification. -/
def EdgesOk (g : Graph) : Prop := ∀ e ∈ g.edges, edgeOk e

/-! Fixtures: concrete connectors, schemas and graphs used by the
concrete theorems below. -/

/-- A connected connector whose every schema fetch fails (or returns an
empty schema) and whose sampling returns nothing. -/
def connNoSchema : Connector :=
  ⟨true, [], fun _ => none, fun _ _ => []⟩

/-- A one-field schema: a `Link` field targeting `Supplier`. -/
def schemaLinkSupplier : Schema :=
  ⟨[⟨"Link", "Supplier"⟩], "Selling", 0, 0, 0, 0⟩

/-- A connected connector whose every schema fetch returns
`schemaLinkSupplier`. -/
def connWithSchema : Connector :=
  ⟨true, ["Customer"], fun _ => some schemaLinkSupplier, fun _ _ => []⟩

/-- A disconnected connector. -/
def connDown : Connector :=
  ⟨false, ["Customer"], fun _ => some schemaLinkSupplier, fun _ _ => []⟩

/-- A two-type-node graph carrying two parallel `links_to` edges from
`"A"` to `"B"`, built through the builder's own operations. -/
def g2ex : Graph :=
  add_relationship_edge
    (add_relationship_edge
      (add_doctype_node connNoSchema (add_doctype_node connNoSchema emptyGraph "A" []) "B" [])
      "A" "B" "links_to" [] "t0")
    "A" "B" "links_to" [] "t0"

/-- First-match lookup of a node's score in a centrality list. -/
def lookupScore (l : List (String × ℚ)) (n : String) : Option ℚ :=
  match l with
  | [] => none
  | p :: ps => if p.1 == n then some p.2 else lookupScore ps n

/-- An arbitrary sequence of `add_relationship_edge` calls (each call
giving source, target and relationship kind, with empty metadata). -/
def applyRelEdges (g : Graph) (now : String)
    (calls : List (String × String × String)) : Graph :=
  calls.foldl (fun g c => add_relationship_edge g c.1 c.2.1 c.2.2 [] now) g

/-- A connector discovering two types, where `"Customer"`'s schema links
to `"Supplier"`. -/
def connTwo : Connector :=
  ⟨true, ["Customer", "Supplier"],
   fun dt => if dt == "Customer" then some schemaLinkSupplier else none,
   fun _ _ => []⟩

/-- Two sampled records for the C9 witness: `A1` references `B` through
its `customer` field. -/
def docA : DocData := [("name", PyVal.str "A1"), ("customer", PyVal.str "B")]

/-- The referenced record: its `name` is `B`. -/
def docB : DocData := [("name", PyVal.str "B")]

/-- A connector sampling exactly the two witness records. -/
def connDocs : Connector :=
  ⟨true, [], fun _ => none, fun _ _ => [docA, docB]⟩

/-- Two sampled records with no cross references. -/
def docX : DocData := [("name", PyVal.str "X")]

/-- A second record with no cross references. -/
def docY : DocData := [("name", PyVal.str "Y")]

/-- A connector sampling two records that reference nothing. -/
def connDocsNoRef : Connector :=
  ⟨true, [], fun _ => none, fun _ _ => [docX, docY]⟩

/-- The build sequence used for the C3 witness: one instance-level build
over the two witness records. -/
def stepsW : List BuildStep :=
  [BuildStep.documentBuild connDocs "Sales Order" 20 "t0"]

/-! Basic lemmas about the attribute-map and graph-store operations. -/

lemma getAttr_setAttr_self (m : AttrMap) (k : String) (v : PyVal) :
    getAttr (setAttr m k v) k = some v := by
  induction m with
  | nil => simp [setAttr, getAttr]
  | cons p ps ih =>
    by_cases h : p.1 = k
    · simp [setAttr, getAttr, h]
    · simp [setAttr, getAttr, h, ih]

lemma getAttr_setAttr_ne (m : AttrMap) (k q : String) (v : PyVal) (h : q ≠ k) :
    getAttr (setAttr m k v) q = getAttr m q := by
  have hkq : ¬(k = q) := fun hh => h hh.symm
  induction m with
  | nil => simp [setAttr, getAttr, hkq]
  | cons p ps ih =>
    by_cases hp : p.1 = k
    · have hpq : ¬(p.1 = q) := by rw [hp]; exact hkq
      simp [setAttr, getAttr, hp, hkq, hpq]
    · simp [setAttr, getAttr, hp, ih]

lemma edges_ensureNode (g : Graph) (n : String) : (g.ensureNode n).edges = g.edges := rfl

lemma edges_addNode (g : Graph) (n : String) (a : AttrMap) :
    (g.addNode n a).edges = g.edges := rfl

lemma edges_addEdge (g : Graph) (u v : String) (a : AttrMap) :
    (g.addEdge u v a).edges = g.edges ++ [⟨u, v, a⟩] := rfl

lemma edges_add_relationship_edge (g : Graph) (u v t : String) (m : AttrMap) (now : String) :
    (add_relationship_edge g u v t m now).edges
      = g.edges ++ [⟨u, v, setAttr (setAttr m "relationship_type" (.str t))
                            "created_at" (.str now)⟩] := rfl

lemma any_key_ensureList (l : List (String × AttrMap)) (n m : String) :
    ((ensureList l n).any fun p => p.1 == m) = ((l.any fun p => p.1 == m) || n == m) := by
  induction l with
  | nil => simp [ensureList]
  | cons p ps ih =>
    by_cases h : p.1 = n
    · by_cases hm : p.1 = m <;> simp [ensureList, h, hm, h ▸ hm]
    · simp [ensureList, h, ih, Bool.or_assoc]

lemma any_key_addNodeList (l : List (String × AttrMap)) (n : String) (a : AttrMap)
    (m : String) :
    ((addNodeList l n a).any fun p => p.1 == m)
      = ((l.any fun p => p.1 == m) || n == m) := by
  induction l with
  | nil => simp [addNodeList]
  | cons p ps ih =>
    by_cases h : p.1 = n
    · by_cases hm : p.1 = m <;> simp [addNodeList, h, hm, h ▸ hm]
    · simp [addNodeList, h, ih, Bool.or_assoc]

lemma length_addNodeList (l : List (String × AttrMap)) (n : String) (a : AttrMap) :
    (addNodeList l n a).length
      = if (l.any fun p => p.1 == n) = true then l.length else l.length + 1 := by
  induction l with
  | nil => simp [addNodeList]
  | cons p ps ih =>
    by_cases h : p.1 = n
    · simp [addNodeList, h]
    · by_cases hps : (ps.any fun p => p.1 == n) = true <;>
        simp [addNodeList, beq_iff_eq, h, hps, ih]

lemma hasNode_addNode (g : Graph) (n : String) (a : AttrMap) (m : String) :
    (g.addNode n a).hasNode m = (g.hasNode m || n == m) := by
  simp [Graph.addNode, Graph.hasNode, any_key_addNodeList]

lemma hasNode_ensureNode (g : Graph) (n m : String) :
    (g.ensureNode n).hasNode m = (g.hasNode m || n == m) := by
  simp [Graph.ensureNode, Graph.hasNode, any_key_ensureList]

lemma hasNode_addEdge (g : Graph) (u v : String) (a : AttrMap) (m : String) :
    (g.addEdge u v a).hasNode m = ((g.hasNode m || u == m) || v == m) := by
  simp [Graph.addEdge, Graph.hasNode, Graph.ensureNode, any_key_ensureList]

lemma nodes_length_addNode (g : Graph) (n : String) (a : AttrMap) :
    (g.addNode n a).nodes.length
      = if g.hasNode n = true then g.nodes.length else g.nodes.length + 1 := by
  simp [Graph.addNode, Graph.hasNode, length_addNodeList]

lemma nodes_add_doctype_node (conn : Connector) (g : Graph) (dt : String) (m : AttrMap) :
    ∃ M, add_doctype_node conn g dt m = g.addNode dt M := by
  unfold add_doctype_node
  cases conn.getSchema dt <;> exact ⟨_, rfl⟩

lemma hasNode_add_doctype_node (conn : Connector) (g : Graph) (dt : String) (m : AttrMap)
    (n : String) :
    (add_doctype_node conn g dt m).hasNode n = (g.hasNode n || dt == n) := by
  obtain ⟨M, hM⟩ := nodes_add_doctype_node conn g dt m
  rw [hM, hasNode_addNode]

lemma nodes_length_add_doctype_node (conn : Connector) (g : Graph) (dt : String)
    (m : AttrMap) :
    (add_doctype_node conn g dt m).nodes.length
      = if g.hasNode dt = true then g.nodes.length else g.nodes.length + 1 := by
  obtain ⟨M, hM⟩ := nodes_add_doctype_node conn g dt m
  rw [hM, nodes_length_addNode]

lemma edges_add_doctype_node (conn : Connector) (g : Graph) (dt : String) (m : AttrMap) :
    (add_doctype_node conn g dt m).edges = g.edges := by
  obtain ⟨M, hM⟩ := nodes_add_doctype_node conn g dt m
  rw [hM, edges_addNode]


/-! Claim theorems. -/

/-- Claim C1 counterexample: `"Customer"` is present in the static
`known_relationships` table, yet when its schema fetch yields an
empty/absent result, `discover_doctype_relationships` returns an empty
`links_to` — the static associations are not appended, because the
function returns early on a falsy schema. -/
theorem claim_C1_counterexample :
    lookupKnown "Customer"
        = some ["Sales Order", "Sales Invoice", "Quotation", "Opportunity"] ∧
    (discover_doctype_relationships connNoSchema "Customer").links_to = [] :=
  ⟨by decide, rfl⟩

/-- Claim C1 (amended): the statically known associations for a type are
appended to `links_to` only when the schema fetch succeeds with a
non-empty schema; when the fetch yields an empty/absent result, the
returned `links_to` is empty (the static table is not consulted). -/
theorem claim_C1_theorem (conn : Connector) (doctype : String) (L : List String)
    (hk : lookupKnown doctype = some L) :
    (∀ s, conn.getSchema doctype = some s →
        ∃ fieldLinks,
          (discover_doctype_relationships conn doctype).links_to = fieldLinks ++ L) ∧
    (conn.getSchema doctype = none →
        (discover_doctype_relationships conn doctype).links_to = []) := by
  constructor
  · intro s hs
    refine ⟨s.fields.filterMap (fun f =>
      if f.fieldtype == "Link" && f.options != "" then some f.options else none), ?_⟩
    simp [discover_doctype_relationships, hs, hk]
  · intro hs
    simp [discover_doctype_relationships, hs]

/-- Claim C1 witness: at a connector whose fetch succeeds the static
associations for `"Customer"` appear as a suffix of `links_to`; at a
connector whose fetch fails `links_to` is empty. -/
theorem claim_C1_witness :
    (∃ fieldLinks, (discover_doctype_relationships connWithSchema "Customer").links_to
        = fieldLinks ++ ["Sales Order", "Sales Invoice", "Quotation", "Opportunity"]) ∧
    (discover_doctype_relationships connNoSchema "Customer").links_to = [] :=
  ⟨(claim_C1_theorem connWithSchema "Customer"
      ["Sales Order", "Sales Invoice", "Quotation", "Opportunity"]
      (by decide)).1 schemaLinkSupplier rfl,
   (claim_C1_theorem connNoSchema "Customer"
      ["Sales Order", "Sales Invoice", "Quotation", "Opportunity"]
      (by decide)).2 rfl⟩


lemma lookupScore_map_nodes (l : List (String × AttrMap)) (f : String → ℚ) (n : String)
    (h : (l.any fun p => p.1 == n) = true) :
    lookupScore (l.map (fun p => (p.1, f p.1))) n = some (f n) := by
  induction l with
  | nil => simp at h
  | cons p ps ih =>
    by_cases hp : p.1 = n
    · simp [lookupScore, hp]
    · have hps : (ps.any fun p => p.1 == n) = true := by
        simp only [List.any_cons, Bool.or_eq_true] at h
        rcases h with h | h
        · exact absurd (by simpa using h) hp
        · exact h
      simp [lookupScore, hp, ih hps]

lemma degree_centrality_g2ex : degree_centrality g2ex = [("A", 2), ("B", 2)] := by
  rw [degree_centrality, if_neg (by decide)]
  rw [show g2ex.nodes = [("A", []), ("B", [])] from by decide]
  simp only [List.map_cons, List.map_nil]
  norm_num [show g2ex.outDegree "A" = 2 from by decide,
    show g2ex.inDegree "A" = 0 from by decide,
    show g2ex.outDegree "B" = 0 from by decide,
    show g2ex.inDegree "B" = 2 from by decide,
    show g2ex.nodes.length = 2 from by decide]

lemma most_connected_g2ex :
    (get_graph_statistics g2ex).most_connected = [("A", 2), ("B", 2)] := by
  show (sortDesc (degree_centrality g2ex)).take 10 = _
  rw [degree_centrality_g2ex]
  norm_num [sortDesc, insertDesc]

/-- Claim C2 counterexample: `g2ex` holds two parallel `links_to` edges
from `"A"` to `"B"` over two nodes.  `get_graph_statistics` reports
centrality 2 for `"A"` (each parallel edge counts toward the degree),
while the simple-graph projection the claim prescribes gives
`"A"` centrality 1 — so multi-edges do not contribute only once. -/
theorem claim_C2_counterexample :
    (get_graph_statistics g2ex).most_connected = [("A", 2), ("B", 2)] ∧
    simpleProjectionCentrality g2ex "A" = 1 ∧ ((2 : ℚ) ≠ 1) := by
  refine ⟨most_connected_g2ex, ?_, by norm_num⟩
  simp only [simpleProjectionCentrality]
  norm_num
    [show ((g2ex.edges.map (fun e => (e.src, e.tgt))).dedup.filter
        (fun p => p.1 == "A")).length = 1 from by decide,
     show ((g2ex.edges.map (fun e => (e.src, e.tgt))).dedup.filter
        (fun p => p.2 == "A")).length = 0 from by decide,
     show g2ex.nodes.length = 2 from by decide]

/-- Claim C2 (amended): for every graph with at least two nodes,
`get_graph_statistics` ranks nodes by NetworkX degree centrality, which
assigns each node (in-degree + out-degree) divided by (totalNodes - 1)
where every parallel edge between the same ordered node pair contributes
separately to the degree (no simple-graph projection). -/
theorem claim_C2_theorem (g : Graph) (n : String)
    (hn : g.hasNode n = true) (h2 : 2 ≤ g.nodes.length) :
    lookupScore (degree_centrality g) n
      = some (((g.outDegree n + g.inDegree n : Nat) : ℚ) / ((g.nodes.length : ℚ) - 1)) ∧
    (get_graph_statistics g).most_connected = (sortDesc (degree_centrality g)).take 10 := by
  refine ⟨?_, rfl⟩
  rw [degree_centrality, if_neg (by omega)]
  rw [lookupScore_map_nodes g.nodes
    (fun m => ((g.outDegree m + g.inDegree m : Nat) : ℚ)
      * (1 / ((g.nodes.length : ℚ) - 1))) n hn]
  rw [mul_one_div]

/-- Claim C2 witness: the amended centrality formula at `g2ex` and `"A"`. -/
theorem claim_C2_witness :
    lookupScore (degree_centrality g2ex) "A"
      = some (((g2ex.outDegree "A" + g2ex.inDegree "A" : Nat) : ℚ)
          / ((g2ex.nodes.length : ℚ) - 1)) ∧
    (get_graph_statistics g2ex).most_connected
      = (sortDesc (degree_centrality g2ex)).take 10 :=
  claim_C2_theorem g2ex "A" (by decide) (by decide)

/-- Claim C4: `add_document_node` returns the composite node id, appends
exactly one `instance_of` edge from the instance node to the type node,
and afterwards both the instance node and the type node exist — even
when the type node was never separately added. -/
theorem claim_C4_instance_edge (g : Graph) (doctype : String) (doc_name : PyVal)
    (doc_data : DocData) :
    (add_document_node g doctype doc_name doc_data).2
        = doctype ++ "::" ++ doc_name.pyStr ∧
    (add_document_node g doctype doc_name doc_data).1.edges
        = g.edges ++ [⟨doctype ++ "::" ++ doc_name.pyStr, doctype,
                       [("relationship", .str "instance_of")]⟩] ∧
    (add_document_node g doctype doc_name doc_data).1.hasNode doctype = true ∧
    (add_document_node g doctype doc_name doc_data).1.hasNode
        (doctype ++ "::" ++ doc_name.pyStr) = true := by
  refine ⟨rfl, rfl, ?_, ?_⟩
  · simp [add_document_node, hasNode_addEdge]
  · simp [add_document_node, hasNode_addEdge]

/-- Claim C5: a failed connectivity check makes the type-level build
return the graph unchanged, zero processed types and the
connection-failure indicator; a connected build over an empty type
listing returns the graph unchanged, zero processed types and the
distinct no-types-found indicator. -/
theorem claim_C5_build_abort (g : Graph) (c1 c2 : Connector) (now1 now2 : String)
    (h1 : c1.connected = false) (h2 : c2.connected = true) (h3 : c2.doctypes = []) :
    (build_doctype_schema_graph c1 now1 g).1 = g ∧
    (build_doctype_schema_graph c1 now1 g).2.doctypes_processed = 0 ∧
    (build_doctype_schema_graph c1 now1 g).2.error
        = some "Could not connect to ERPNext" ∧
    (build_doctype_schema_graph c2 now2 g).1 = g ∧
    (build_doctype_schema_graph c2 now2 g).2.doctypes_processed = 0 ∧
    (build_doctype_schema_graph c2 now2 g).2.error = some "No DocTypes found" ∧
    (build_doctype_schema_graph c1 now1 g).2.error
        ≠ (build_doctype_schema_graph c2 now2 g).2.error := by
  simp [build_doctype_schema_graph, h1, h2, h3]

/-- Claim C5 witness: the two abort outcomes at concrete connectors. -/
theorem claim_C5_build_abort_witness :
    (build_doctype_schema_graph connDown "t1" emptyGraph).1 = emptyGraph ∧
    (build_doctype_schema_graph connDown "t1" emptyGraph).2.doctypes_processed = 0 ∧
    (build_doctype_schema_graph connDown "t1" emptyGraph).2.error
        = some "Could not connect to ERPNext" ∧
    (build_doctype_schema_graph connNoSchema "t2" emptyGraph).1 = emptyGraph ∧
    (build_doctype_schema_graph connNoSchema "t2" emptyGraph).2.doctypes_processed = 0 ∧
    (build_doctype_schema_graph connNoSchema "t2" emptyGraph).2.error
        = some "No DocTypes found" ∧
    (build_doctype_schema_graph connDown "t1" emptyGraph).2.error
        ≠ (build_doctype_schema_graph connNoSchema "t2" emptyGraph).2.error :=
  claim_C5_build_abort emptyGraph connDown connNoSchema "t1" "t2" rfl rfl rfl


/-- Claim C6: `add_relationship_edge` appends unconditionally — after any
sequence of N calls (repeated triples included) the edge count grows by
exactly N, and a single call whose endpoints are both absent from the
store still appends its edge rather than rejecting it. -/
theorem claim_C6_append_only (g : Graph) (now : String)
    (calls : List (String × String × String)) :
    (applyRelEdges g now calls).edges.length = g.edges.length + calls.length ∧
    (∀ u v t m, g.hasNode u = false → g.hasNode v = false →
      (add_relationship_edge g u v t m now).edges.length = g.edges.length + 1) := by
  constructor
  · induction calls generalizing g with
    | nil => simp [applyRelEdges]
    | cons c cs ih =>
      have step : (add_relationship_edge g c.1 c.2.1 c.2.2 [] now).edges.length
          = g.edges.length + 1 := by
        rw [edges_add_relationship_edge]; simp
      calc (applyRelEdges g now (c :: cs)).edges.length
          = (applyRelEdges (add_relationship_edge g c.1 c.2.1 c.2.2 [] now) now cs).edges.length := rfl
        _ = (add_relationship_edge g c.1 c.2.1 c.2.2 [] now).edges.length + cs.length := ih _
        _ = g.edges.length + (cs.length + 1) := by rw [step]; omega
        _ = g.edges.length + (c :: cs).length := by simp
  · intro u v t m _ _
    rw [edges_add_relationship_edge]; simp

/-- Claim C6 witness: two repeated calls on an existing pair add two
edges, and one call between two absent endpoints adds one edge. -/
theorem claim_C6_append_only_witness :
    (applyRelEdges g2ex "t1" [("A", "B", "links_to"), ("A", "B", "links_to")]).edges.length
        = g2ex.edges.length + 2 ∧
    (add_relationship_edge emptyGraph "X" "Y" "k" [] "t1").edges.length
        = emptyGraph.edges.length + 1 :=
  ⟨(claim_C6_append_only g2ex "t1" [("A", "B", "links_to"), ("A", "B", "links_to")]).1,
   (claim_C6_append_only emptyGraph "t1" []).2 "X" "Y" "k" [] (by decide) (by decide)⟩

/-- Claim C7: `add_doctype_node` is an upsert — adding two distinct fresh
type names grows the node count by exactly 2, and re-adding the first
(with any metadata) leaves the node count unchanged. -/
theorem claim_C7_upsert (conn : Connector) (g : Graph) (T1 T2 : String)
    (m1 m2 m3 : AttrMap) (hne : T1 ≠ T2)
    (h1 : g.hasNode T1 = false) (h2 : g.hasNode T2 = false) :
    (add_doctype_node conn (add_doctype_node conn g T1 m1) T2 m2).nodes.length
        = g.nodes.length + 2 ∧
    (add_doctype_node conn
        (add_doctype_node conn (add_doctype_node conn g T1 m1) T2 m2)
        T1 m3).nodes.length
      = (add_doctype_node conn (add_doctype_node conn g T1 m1) T2 m2).nodes.length := by
  have e1 : (add_doctype_node conn g T1 m1).hasNode T2 = false := by
    rw [hasNode_add_doctype_node]
    simp [h2, hne]
  have e2 : (add_doctype_node conn (add_doctype_node conn g T1 m1) T2 m2).hasNode T1
      = true := by
    rw [hasNode_add_doctype_node, hasNode_add_doctype_node]
    simp
  constructor
  · rw [nodes_length_add_doctype_node, e1, if_neg (by simp),
      nodes_length_add_doctype_node, h1, if_neg (by simp)]
  · rw [nodes_length_add_doctype_node, e2, if_pos rfl]

/-- Claim C7 witness: two fresh names then a re-add, on the fresh graph. -/
theorem claim_C7_upsert_witness :
    (add_doctype_node connNoSchema
        (add_doctype_node connNoSchema emptyGraph "A" []) "B" []).nodes.length
      = emptyGraph.nodes.length + 2 ∧
    (add_doctype_node connNoSchema
        (add_doctype_node connNoSchema
          (add_doctype_node connNoSchema emptyGraph "A" []) "B" [])
        "A" [("k", .str "v")]).nodes.length
      = (add_doctype_node connNoSchema
          (add_doctype_node connNoSchema emptyGraph "A" []) "B" []).nodes.length :=
  claim_C7_upsert connNoSchema emptyGraph "A" "B" [] [] [("k", .str "v")]
    (by decide) (by decide) (by decide)

lemma hasNode_congr_nodes (g g' : Graph) (h : g.nodes = g'.nodes) (n : String) :
    g.hasNode n = g'.hasNode n := by
  simp [Graph.hasNode, h]

lemma ensureList_of_mem (l : List (String × AttrMap)) (n : String)
    (h : (l.any fun p => p.1 == n) = true) : ensureList l n = l := by
  induction l with
  | nil => simp at h
  | cons p ps ih =>
    by_cases hp : p.1 = n
    · simp [ensureList, hp]
    · have hps : (ps.any fun p => p.1 == n) = true := by
        simp only [List.any_cons, Bool.or_eq_true] at h
        rcases h with h | h
        · exact absurd (by simpa using h) hp
        · exact h
      simp [ensureList, hp, ih hps]

lemma nodes_addEdge_present (g : Graph) (u v : String) (a : AttrMap)
    (hu : g.hasNode u = true) (hv : g.hasNode v = true) :
    (g.addEdge u v a).nodes = g.nodes := by
  show ensureList (ensureList g.nodes u) v = g.nodes
  rw [ensureList_of_mem g.nodes u hu, ensureList_of_mem g.nodes v hv]

lemma nodes_add_relationship_edge_present (g : Graph) (u v t : String) (m : AttrMap)
    (now : String) (hu : g.hasNode u = true) (hv : g.hasNode v = true) :
    (add_relationship_edge g u v t m now).nodes = g.nodes :=
  nodes_addEdge_present g u v _ hu hv

lemma relTargetFold_inv (now dt t : String) (g1 : Graph) (hdt : g1.hasNode dt = true)
    (targets : List String) :
    ∀ acc : Graph × Nat, acc.1.nodes = g1.nodes →
      (∀ e ∈ acc.1.edges, g1.hasNode e.src = true ∧ g1.hasNode e.tgt = true) →
      (relTargetFold now dt t acc targets).1.nodes = g1.nodes ∧
      (∀ e ∈ (relTargetFold now dt t acc targets).1.edges,
        g1.hasNode e.src = true ∧ g1.hasNode e.tgt = true) := by
  induction targets with
  | nil => intro acc hn he; exact ⟨hn, he⟩
  | cons ld tl ih =>
    intro acc hn he
    by_cases hld : acc.1.hasNode ld = true
    · have hldg1 : g1.hasNode ld = true := by
        rw [← hasNode_congr_nodes acc.1 g1 hn]; exact hld
      have hdtacc : acc.1.hasNode dt = true := by
        rw [hasNode_congr_nodes acc.1 g1 hn]; exact hdt
      have hnodes : (add_relationship_edge acc.1 dt ld t [] now).nodes = g1.nodes := by
        rw [nodes_add_relationship_edge_present acc.1 dt ld t [] now hdtacc hld, hn]
      have hedges : ∀ e ∈ (add_relationship_edge acc.1 dt ld t [] now).edges,
          g1.hasNode e.src = true ∧ g1.hasNode e.tgt = true := by
        intro e hee
        rw [edges_add_relationship_edge] at hee
        rcases List.mem_append.mp hee with hin | hin
        · exact he e hin
        · rw [List.mem_singleton.mp hin]
          exact ⟨hdt, hldg1⟩
      have step := ih (add_relationship_edge acc.1 dt ld t [] now, acc.2 + 1) hnodes hedges
      simp only [relTargetFold, List.foldl_cons, hld, if_true] at step ⊢
      exact step
    · have step := ih acc hn he
      simp only [relTargetFold, List.foldl_cons] at step ⊢
      rw [if_neg hld]
      exact step

lemma schemaEdgeStep_inv (conn : Connector) (now : String) (g1 : Graph) (dt : String)
    (hdt : g1.hasNode dt = true) (acc : Graph × Nat)
    (hn : acc.1.nodes = g1.nodes)
    (he : ∀ e ∈ acc.1.edges, g1.hasNode e.src = true ∧ g1.hasNode e.tgt = true) :
    (schemaEdgeStep conn now acc dt).1.nodes = g1.nodes ∧
    (∀ e ∈ (schemaEdgeStep conn now acc dt).1.edges,
      g1.hasNode e.src = true ∧ g1.hasNode e.tgt = true) := by
  have h1 := relTargetFold_inv now dt "links_to" g1 hdt
    (discover_doctype_relationships conn dt).links_to acc hn he
  exact relTargetFold_inv now dt "has_child_table" g1 hdt
    (discover_doctype_relationships conn dt).child_tables _ h1.1 h1.2

lemma schemaEdgeFold_inv (conn : Connector) (now : String) (g1 : Graph)
    (dts : List String) (hdts : ∀ dt ∈ dts, g1.hasNode dt = true) :
    ∀ acc : Graph × Nat, acc.1.nodes = g1.nodes →
      (∀ e ∈ acc.1.edges, g1.hasNode e.src = true ∧ g1.hasNode e.tgt = true) →
      (dts.foldl (schemaEdgeStep conn now) acc).1.nodes = g1.nodes ∧
      (∀ e ∈ (dts.foldl (schemaEdgeStep conn now) acc).1.edges,
        g1.hasNode e.src = true ∧ g1.hasNode e.tgt = true) := by
  induction dts with
  | nil => intro acc hn he; exact ⟨hn, he⟩
  | cons dt tl ih =>
    intro acc hn he
    have hstep := schemaEdgeStep_inv conn now g1 dt (hdts dt (by simp)) acc hn he
    have := ih (fun d hd => hdts d (by simp [hd])) (schemaEdgeStep conn now acc dt)
      hstep.1 hstep.2
    simpa [List.foldl_cons] using this

lemma hasNode_schemaNodePass (conn : Connector) (dts : List String) :
    ∀ (g : Graph) (n : String),
      (schemaNodePass conn g dts).hasNode n = true ↔
        (g.hasNode n = true ∨ n ∈ dts) := by
  induction dts with
  | nil => intro g n; simp [schemaNodePass]
  | cons dt tl ih =>
    intro g n
    rw [show schemaNodePass conn g (dt :: tl)
        = schemaNodePass conn (add_doctype_node conn g dt []) tl from rfl, ih]
    rw [hasNode_add_doctype_node]
    simp only [Bool.or_eq_true, beq_iff_eq, List.mem_cons]
    constructor
    · rintro ((h | h) | h)
      · exact Or.inl h
      · exact Or.inr (Or.inl h.symm)
      · exact Or.inr (Or.inr h)
    · rintro (h | h | h)
      · exact Or.inl (Or.inl h)
      · exact Or.inl (Or.inr h.symm)
      · exact Or.inr h

lemma edges_schemaNodePass (conn : Connector) (dts : List String) :
    ∀ g : Graph, (schemaNodePass conn g dts).edges = g.edges := by
  induction dts with
  | nil => intro g; rfl
  | cons dt tl ih =>
    intro g
    rw [show schemaNodePass conn g (dt :: tl)
        = schemaNodePass conn (add_doctype_node conn g dt []) tl from rfl, ih,
      edges_add_doctype_node]

/-- Claim C8: after a type-level build starting from the fresh graph,
every edge's source and target are nodes of the resulting graph, and
both appear in the discovered type listing — no `links_to` or
`has_child_table` edge points at a type that was never discovered,
because the edge pass checks `has_node` on the target before adding. -/
theorem claim_C8_edge_endpoints (conn : Connector) (now : String) :
    ∀ e ∈ (build_doctype_schema_graph conn now emptyGraph).1.edges,
      (build_doctype_schema_graph conn now emptyGraph).1.hasNode e.src = true ∧
      (build_doctype_schema_graph conn now emptyGraph).1.hasNode e.tgt = true ∧
      e.src ∈ conn.doctypes ∧ e.tgt ∈ conn.doctypes := by
  intro e he
  by_cases hc : conn.connected
  case neg =>
    rw [build_doctype_schema_graph] at he
    simp [hc, emptyGraph] at he
  case pos =>
  by_cases hd : conn.doctypes.isEmpty
  · rw [build_doctype_schema_graph] at he
    simp [hc, hd, emptyGraph] at he
  · have hbuild : (build_doctype_schema_graph conn now emptyGraph).1
        = (schemaEdgePass conn now
            (schemaNodePass conn emptyGraph conn.doctypes) conn.doctypes).1 := by
      rw [build_doctype_schema_graph]
      simp [hc, hd]
    have hg1has : ∀ n, (schemaNodePass conn emptyGraph conn.doctypes).hasNode n = true
        ↔ n ∈ conn.doctypes := by
      intro n
      rw [hasNode_schemaNodePass]
      simp [emptyGraph, Graph.hasNode]
    have he0 : ∀ e ∈ (schemaNodePass conn emptyGraph conn.doctypes).edges,
        (schemaNodePass conn emptyGraph conn.doctypes).hasNode e.src = true ∧
        (schemaNodePass conn emptyGraph conn.doctypes).hasNode e.tgt = true := by
      intro e hee
      rw [edges_schemaNodePass] at hee
      simp [emptyGraph] at hee
    have hinv := schemaEdgeFold_inv conn now (schemaNodePass conn emptyGraph conn.doctypes)
      conn.doctypes (fun dt hdt => (hg1has dt).mpr hdt)
      ((schemaNodePass conn emptyGraph conn.doctypes), 0) rfl he0
    rw [hbuild] at he ⊢
    have hmem := hinv.2 e (by exact he)
    have hsame : ∀ n, (schemaEdgePass conn now
          (schemaNodePass conn emptyGraph conn.doctypes) conn.doctypes).1.hasNode n
        = (schemaNodePass conn emptyGraph conn.doctypes).hasNode n :=
      fun n => hasNode_congr_nodes _ _ hinv.1 n
    refine ⟨?_, ?_, ?_, ?_⟩
    · rw [hsame]; exact hmem.1
    · rw [hsame]; exact hmem.2
    · exact (hg1has e.src).mp hmem.1
    · exact (hg1has e.tgt).mp hmem.2


/-- Claim C8 witness: the `links_to` edge the build adds from
`"Customer"` to `"Supplier"` has both endpoints as discovered nodes. -/
theorem claim_C8_edge_endpoints_witness :
    (build_doctype_schema_graph connTwo "t0" emptyGraph).1.hasNode "Customer" = true ∧
    (build_doctype_schema_graph connTwo "t0" emptyGraph).1.hasNode "Supplier" = true ∧
    "Customer" ∈ connTwo.doctypes ∧ "Supplier" ∈ connTwo.doctypes :=
  claim_C8_edge_endpoints connTwo "t0"
    ⟨"Customer", "Supplier",
     [("relationship_type", .str "links_to"), ("created_at", .str "t0")]⟩
    (by decide)

lemma edges_add_document_node (g : Graph) (doctype : String) (doc_name : PyVal)
    (doc_data : DocData) :
    (add_document_node g doctype doc_name doc_data).1.edges
      = g.edges ++ [⟨doctype ++ "::" ++ doc_name.pyStr, doctype,
                     [("relationship", PyVal.str "instance_of")]⟩] := rfl

lemma docNodePass_fold (doctype : String) (documents : List DocData) :
    ∀ (g : Graph) (acc : List (String × DocData)),
      (documents.foldl (docNodeStep doctype) (g, acc)).2
          = acc ++ docNodes doctype documents ∧
      (documents.foldl (docNodeStep doctype) (g, acc)).1.edges
          = g.edges ++ (docNodes doctype documents).map
              (fun nd => ⟨nd.1, doctype, [("relationship", PyVal.str "instance_of")]⟩) := by
  induction documents with
  | nil => intro g acc; simp [docNodes]
  | cons doc docs ih =>
    intro g acc
    cases hname : getAttr doc "name" with
    | none =>
      have hstep : docNodeStep doctype (g, acc) doc = (g, acc) := by
        simp [docNodeStep, hname]
      have hdn : docNodes doctype (doc :: docs) = docNodes doctype docs := by
        simp [docNodes, List.filterMap_cons, hname]
      rw [List.foldl_cons, hstep, hdn]
      exact ih g acc
    | some v =>
      by_cases htr : v.truthy = true
      · have hstep : docNodeStep doctype (g, acc) doc
            = ((add_document_node g doctype v doc).1,
               acc ++ [(doctype ++ "::" ++ v.pyStr, doc)]) := by
          simp [docNodeStep, hname, htr, add_document_node]
        have hdn : docNodes doctype (doc :: docs)
            = (doctype ++ "::" ++ v.pyStr, doc) :: docNodes doctype docs := by
          simp [docNodes, List.filterMap_cons, hname, htr]
        rw [List.foldl_cons, hstep, hdn]
        have h := ih (add_document_node g doctype v doc).1
          (acc ++ [(doctype ++ "::" ++ v.pyStr, doc)])
        refine ⟨?_, ?_⟩
        · rw [h.1]; simp
        · rw [h.2, edges_add_document_node]; simp
      · have hstep : docNodeStep doctype (g, acc) doc = (g, acc) := by
          simp [docNodeStep, hname, htr]
        have hdn : docNodes doctype (doc :: docs) = docNodes doctype docs := by
          simp [docNodes, List.filterMap_cons, hname, htr]
        rw [List.foldl_cons, hstep, hdn]
        exact ih g acc

lemma docNodePass_snd (doctype : String) (g : Graph) (documents : List DocData) :
    (docNodePass doctype g documents).2 = docNodes doctype documents := by
  have h := (docNodePass_fold doctype documents g []).1
  simpa [docNodePass] using h

lemma docNodePass_edges (doctype : String) (g : Graph) (documents : List DocData) :
    (docNodePass doctype g documents).1.edges
      = g.edges ++ (docNodes doctype documents).map
          (fun nd => ⟨nd.1, doctype, [("relationship", PyVal.str "instance_of")]⟩) :=
  (docNodePass_fold doctype documents g []).2

lemma foldl_mem_preserved {α : Type} (step : Graph × Nat → α → Graph × Nat)
    (mono : ∀ acc x, ∀ e ∈ acc.1.edges, e ∈ (step acc x).1.edges)
    (l : List α) :
    ∀ acc e, e ∈ acc.1.edges → e ∈ (l.foldl step acc).1.edges := by
  induction l with
  | nil => intro acc e he; exact he
  | cons x xs ih => intro acc e he; exact ih (step acc x) e (mono acc x e he)

lemma foldl_hit {α : Type} (step : Graph × Nat → α → Graph × Nat)
    (mono : ∀ acc x, ∀ e ∈ acc.1.edges, e ∈ (step acc x).1.edges)
    (Q : Edge → Prop) (x0 : α)
    (hhit : ∀ acc, ∃ e ∈ (step acc x0).1.edges, Q e)
    (l : List α) (hx : x0 ∈ l) :
    ∀ acc, ∃ e ∈ (l.foldl step acc).1.edges, Q e := by
  induction l with
  | nil => cases hx
  | cons y ys ih =>
    intro acc
    rcases List.mem_cons.mp hx with rfl | hmem
    · obtain ⟨e, hee, hq⟩ := hhit acc
      exact ⟨e, foldl_mem_preserved step mono ys (step acc x0) e hee, hq⟩
    · exact ih hmem (step acc y)

lemma foldl_id_of_steps {α β : Type} (step : β → α → β) (l : List α)
    (h : ∀ x ∈ l, ∀ acc, step acc x = acc) :
    ∀ init, l.foldl step init = init := by
  induction l with
  | nil => intro init; rfl
  | cons x xs ih =>
    intro init
    rw [List.foldl_cons, h x (by simp) init]
    exact ih (fun y hy acc => h y (by simp [hy]) acc) init

lemma mem_docRefInner (now nid fname : String) (fval : PyVal)
    (dns : List (String × DocData)) :
    ∀ acc e, e ∈ acc.1.edges → e ∈ (docRefInner now nid fname fval dns acc).1.edges := by
  intro acc e he
  refine foldl_mem_preserved _ ?_ dns acc e he
  intro acc ond e he
  by_cases hc : (ond.1 != nid && (getAttr ond.2 "name" == some fval)) = true
  · simp only [hc, if_true]
    rw [edges_add_relationship_edge]
    exact List.mem_append.mpr (Or.inl he)
  · rw [if_neg hc]; exact he

lemma mem_docRefFields (now : String) (dns : List (String × DocData))
    (nd : String × DocData) :
    ∀ acc e, e ∈ acc.1.edges → e ∈ (docRefFields now dns nd acc).1.edges := by
  intro acc e he
  refine foldl_mem_preserved _ ?_ nd.2 acc e he
  intro acc fv e he
  by_cases hc : fieldRefCandidate fv.2 = true
  · simp only [hc, if_true]
    exact mem_docRefInner now nd.1 fv.1 fv.2 dns acc e he
  · rw [if_neg hc]; exact he

lemma hit_docRefInner (now nid fname v : String)
    (dns : List (String × DocData)) (nidB : String) (B : DocData)
    (hB : (nidB, B) ∈ dns) (hneq : nidB ≠ nid)
    (hname : getAttr B "name" = some (PyVal.str v)) :
    ∀ acc, ∃ e ∈ (docRefInner now nid fname (PyVal.str v) dns acc).1.edges,
      e.src = nid ∧ e.tgt = nidB ∧
      getAttr e.attrs "relationship_type"
        = some (PyVal.str ("references_" ++ fname)) := by
  have hmono : ∀ (acc : Graph × Nat) (ond : String × DocData),
      ∀ e ∈ acc.1.edges,
        e ∈ ((fun (acc : Graph × Nat) (ond : String × DocData) =>
          if ond.1 != nid && (getAttr ond.2 "name" == some (PyVal.str v)) then
            (add_relationship_edge acc.1 nid ond.1 ("references_" ++ fname) [] now,
             acc.2 + 1)
          else acc) acc ond).1.edges := by
    intro acc ond e he
    by_cases hc : (ond.1 != nid && (getAttr ond.2 "name" == some (PyVal.str v))) = true
    · simp only [hc, if_true]
      rw [edges_add_relationship_edge]
      exact List.mem_append.mpr (Or.inl he)
    · simp only []
      rw [if_neg hc]; exact he
  intro acc
  refine foldl_hit _ hmono _ (nidB, B) ?_ dns hB acc
  intro acc
  have hc : (((nidB, B).1 != nid) && (getAttr (nidB, B).2 "name" == some (PyVal.str v)))
      = true := by
    simp [hneq, hname]
  simp only [hc, if_true]
  refine ⟨⟨nid, nidB, setAttr (setAttr [] "relationship_type"
      (PyVal.str ("references_" ++ fname))) "created_at" (PyVal.str now)⟩, ?_, rfl, rfl, ?_⟩
  · rw [edges_add_relationship_edge]
    simp
  · rw [getAttr_setAttr_ne _ _ _ _ (by decide), getAttr_setAttr_self]

lemma hit_docRefFields (now : String) (dns : List (String × DocData))
    (nd : String × DocData) (f v : String)
    (hf : (f, PyVal.str v) ∈ nd.2) (hv : v ≠ "")
    (nidB : String) (B : DocData) (hB : (nidB, B) ∈ dns) (hneq : nidB ≠ nd.1)
    (hname : getAttr B "name" = some (PyVal.str v)) :
    ∀ acc, ∃ e ∈ (docRefFields now dns nd acc).1.edges,
      e.src = nd.1 ∧ e.tgt = nidB ∧
      getAttr e.attrs "relationship_type" = some (PyVal.str ("references_" ++ f)) := by
  have hmono : ∀ (acc : Graph × Nat) (fv : String × PyVal),
      ∀ e ∈ acc.1.edges,
        e ∈ ((fun (acc : Graph × Nat) (fv : String × PyVal) =>
          if fieldRefCandidate fv.2 then docRefInner now nd.1 fv.1 fv.2 dns acc
          else acc) acc fv).1.edges := by
    intro acc fv e he
    by_cases hc : fieldRefCandidate fv.2 = true
    · simp only [hc, if_true]
      exact mem_docRefInner now nd.1 fv.1 fv.2 dns acc e he
    · simp only []
      rw [if_neg hc]; exact he
  intro acc
  refine foldl_hit _ hmono _ (f, PyVal.str v) ?_ nd.2 hf acc
  intro acc
  have hc : fieldRefCandidate (f, PyVal.str v).2 = true := by
    simp [fieldRefCandidate, hv]
  simp only [hc, if_true]
  exact hit_docRefInner now nd.1 f v dns nidB B hB hneq hname acc

lemma hit_docRefPass (now : String) (g : Graph) (dns : List (String × DocData))
    (nd : String × DocData) (hnd : nd ∈ dns) (f v : String)
    (hf : (f, PyVal.str v) ∈ nd.2) (hv : v ≠ "")
    (nidB : String) (B : DocData) (hB : (nidB, B) ∈ dns) (hneq : nidB ≠ nd.1)
    (hname : getAttr B "name" = some (PyVal.str v)) :
    ∃ e ∈ (docRefPass now g dns).1.edges,
      e.src = nd.1 ∧ e.tgt = nidB ∧
      getAttr e.attrs "relationship_type" = some (PyVal.str ("references_" ++ f)) := by
  refine foldl_hit _ ?_ _ nd ?_ dns hnd (g, 0)
  · intro acc x e he
    exact mem_docRefFields now dns x acc e he
  · intro acc
    exact hit_docRefFields now dns nd f v hf hv nidB B hB hneq hname acc

lemma fieldRefCandidate_iff (p : PyVal) :
    fieldRefCandidate p = true ↔ ∃ s, p = PyVal.str s ∧ s ≠ "" := by
  cases p <;> simp [fieldRefCandidate]

lemma docRefInner_id (now nid fname : String) (fval : PyVal)
    (dns : List (String × DocData))
    (h : ∀ ond ∈ dns,
      (ond.1 != nid && (getAttr ond.2 "name" == some fval)) = false) :
    ∀ acc, docRefInner now nid fname fval dns acc = acc := by
  intro acc
  refine foldl_id_of_steps _ dns ?_ acc
  intro x hx acc
  simp [h x hx]

lemma docRefFields_id (now : String) (dns : List (String × DocData))
    (nd : String × DocData)
    (h : ∀ fname v, (fname, PyVal.str v) ∈ nd.2 → v ≠ "" →
      ∀ ond ∈ dns,
        (ond.1 != nd.1 && (getAttr ond.2 "name" == some (PyVal.str v))) = false) :
    ∀ acc, docRefFields now dns nd acc = acc := by
  intro acc
  refine foldl_id_of_steps _ nd.2 ?_ acc
  intro fv hfv acc
  by_cases hc : fieldRefCandidate fv.2 = true
  · obtain ⟨v, hfv2, hvne⟩ := (fieldRefCandidate_iff fv.2).mp hc
    simp only [hc, if_true]
    have hfv3 : (fv.1, PyVal.str v) ∈ nd.2 := by
      rw [← hfv2]; exact hfv
    rw [hfv2]
    exact docRefInner_id now nd.1 fv.1 (PyVal.str v) dns (h fv.1 v hfv3 hvne) acc
  · rw [if_neg hc]

lemma docRefPass_id (now : String) (g : Graph) (dns : List (String × DocData))
    (h : ∀ nd ∈ dns, ∀ acc, docRefFields now dns nd acc = acc) :
    docRefPass now g dns = (g, 0) :=
  foldl_id_of_steps _ dns (fun nd hnd acc => h nd hnd acc) (g, 0)

lemma build_doc_graph_eq (conn : Connector) (doctype : String) (limit : Nat)
    (now : String) (g : Graph)
    (hne : (conn.sampleDocs doctype limit).isEmpty = false) :
    (build_document_relationship_graph conn doctype limit now g).1
      = (docRefPass now (docNodePass doctype g (conn.sampleDocs doctype limit)).1
          (docNodePass doctype g (conn.sampleDocs doctype limit)).2).1 := by
  rw [build_document_relationship_graph]
  simp [hne]

/-- Claim C9: over one sampled batch, (a) whenever record `A` carries a
truthy string field `f` whose value `v` equals the `name` of a different
record `B` of the batch, the instance-level build adds an edge from
`A`'s node to `B`'s node whose relationship kind is `references_f`; and
(b) when no record's `name` equals any other record's field value, the
build adds no reference edge at all — every edge of the result is either
pre-existing or a kind-less `instance_of` edge. -/
theorem claim_C9_reference_edges (conn : Connector) (doctype : String) (limit : Nat)
    (now : String) (g : Graph) :
    (∀ nidA A nidB B f v,
      (nidA, A) ∈ docNodes doctype (conn.sampleDocs doctype limit) →
      (nidB, B) ∈ docNodes doctype (conn.sampleDocs doctype limit) →
      (f, PyVal.str v) ∈ A → v ≠ "" → nidB ≠ nidA →
      getAttr B "name" = some (PyVal.str v) →
      ∃ e ∈ (build_document_relationship_graph conn doctype limit now g).1.edges,
        e.src = nidA ∧ e.tgt = nidB ∧
        getAttr e.attrs "relationship_type"
          = some (PyVal.str ("references_" ++ f))) ∧
    ((∀ nidA A nidB B f v,
        (nidA, A) ∈ docNodes doctype (conn.sampleDocs doctype limit) →
        (nidB, B) ∈ docNodes doctype (conn.sampleDocs doctype limit) →
        (f, PyVal.str v) ∈ A → v ≠ "" → nidB ≠ nidA →
        getAttr B "name" ≠ some (PyVal.str v)) →
      ∀ e ∈ (build_document_relationship_graph conn doctype limit now g).1.edges,
        e ∈ g.edges ∨ getAttr e.attrs "relationship_type" = none) := by
  constructor
  · intro nidA A nidB B f v hA hB hf hv hneq hname
    have hne : (conn.sampleDocs doctype limit).isEmpty = false := by
      cases hdocs : conn.sampleDocs doctype limit with
      | nil => rw [hdocs] at hA; simp [docNodes] at hA
      | cons d ds => simp
    rw [build_doc_graph_eq conn doctype limit now g hne, docNodePass_snd]
    exact hit_docRefPass now _ _ (nidA, A) hA f v hf hv nidB B hB hneq hname
  · intro H e he
    cases hne : (conn.sampleDocs doctype limit).isEmpty
    · rw [build_doc_graph_eq conn doctype limit now g hne, docNodePass_snd] at he
      have hsteps : ∀ nd ∈ docNodes doctype (conn.sampleDocs doctype limit), ∀ acc,
          docRefFields now (docNodes doctype (conn.sampleDocs doctype limit)) nd acc
            = acc := by
        intro nd hnd acc
        apply docRefFields_id
        intro fname v hfv hvne ond hond
        by_cases heq : ond.1 = nd.1
        · simp [heq]
        · have hnn : getAttr ond.2 "name" ≠ some (PyVal.str v) :=
            H nd.1 nd.2 ond.1 ond.2 fname v (by simpa using hnd) (by simpa using hond)
              hfv hvne heq
          have hbeq : (getAttr ond.2 "name" == some (PyVal.str v)) = false := by
            rw [beq_eq_false_iff_ne]; exact hnn
          simp [hbeq]
      rw [docRefPass_id now _ _ hsteps] at he
      rw [docNodePass_edges] at he
      rcases List.mem_append.mp he with hin | hin
      · exact Or.inl hin
      · obtain ⟨nd, _, rfl⟩ := List.mem_map.mp hin
        exact Or.inr rfl
    · rw [build_document_relationship_graph] at he
      simp [hne] at he
      exact Or.inl he

/-- Claim C9 witness: the matching batch produces the
`references_customer` edge, and the non-matching batch produces only
kind-less `instance_of` edges. -/
theorem claim_C9_reference_edges_witness :
    (∃ e ∈ (build_document_relationship_graph connDocs "Sales Order" 20 "t0"
        emptyGraph).1.edges,
      e.src = "Sales Order::A1" ∧ e.tgt = "Sales Order::B" ∧
      getAttr e.attrs "relationship_type"
        = some (PyVal.str ("references_" ++ "customer"))) ∧
    (∀ e ∈ (build_document_relationship_graph connDocsNoRef "Sales Order" 20 "t0"
        emptyGraph).1.edges,
      e ∈ emptyGraph.edges ∨ getAttr e.attrs "relationship_type" = none) := by
  constructor
  · exact (claim_C9_reference_edges connDocs "Sales Order" 20 "t0" emptyGraph).1
      "Sales Order::A1" docA "Sales Order::B" docB "customer" "B"
      (by decide) (by decide) (by decide) (by decide) (by decide) (by decide)
  · refine (claim_C9_reference_edges connDocsNoRef "Sales Order" 20 "t0" emptyGraph).2 ?_
    intro nidA A nidB B f v hA hB hf hv hneq
    have hdn : docNodes "Sales Order" (connDocsNoRef.sampleDocs "Sales Order" 20)
        = [("Sales Order::X", docX), ("Sales Order::Y", docY)] := by decide
    rw [hdn] at hA hB
    simp only [List.mem_cons, List.not_mem_nil, or_false, Prod.mk.injEq] at hA hB
    rcases hA with ⟨rfl, rfl⟩ | ⟨rfl, rfl⟩ <;> rcases hB with ⟨rfl, rfl⟩ | ⟨rfl, rfl⟩ <;>
      first
      | exact absurd rfl hneq
      | (simp only [docX, docY, List.mem_cons, List.not_mem_nil, or_false,
            Prod.mk.injEq, PyVal.str.injEq] at hf
         obtain ⟨rfl, rfl⟩ := hf
         decide)

lemma getAttr_relAttrs_rt (t now : String) :
    getAttr (setAttr (setAttr [] "relationship_type" (PyVal.str t))
      "created_at" (PyVal.str now)) "relationship_type" = some (PyVal.str t) := by
  rw [getAttr_setAttr_ne _ _ _ _ (by decide), getAttr_setAttr_self]

lemma getAttr_relAttrs_r (t now : String) :
    getAttr (setAttr (setAttr [] "relationship_type" (PyVal.str t))
      "created_at" (PyVal.str now)) "relationship" = none := by
  rw [getAttr_setAttr_ne _ _ _ _ (by decide), getAttr_setAttr_ne _ _ _ _ (by decide)]
  rfl

lemma edgesOk_add_relationship_edge (g : Graph) (u v t now : String)
    (ht : t = "links_to" ∨ t = "has_child_table" ∨ ∃ f, t = "references_" ++ f)
    (h : EdgesOk g) : EdgesOk (add_relationship_edge g u v t [] now) := by
  intro e he
  rw [edges_add_relationship_edge] at he
  rcases List.mem_append.mp he with hin | hin
  · exact h e hin
  · rw [List.mem_singleton.mp hin]
    exact Or.inr ⟨getAttr_relAttrs_r t now, t, getAttr_relAttrs_rt t now, ht⟩

lemma edgesOk_docNodePass (doctype : String) (g : Graph) (documents : List DocData)
    (h : EdgesOk g) : EdgesOk (docNodePass doctype g documents).1 := by
  intro e he
  rw [docNodePass_edges] at he
  rcases List.mem_append.mp he with hin | hin
  · exact h e hin
  · obtain ⟨nd, _, rfl⟩ := List.mem_map.mp hin
    exact Or.inl ⟨rfl, rfl⟩

lemma foldl_inv {α β : Type} (P : β → Prop) (step : β → α → β) (l : List α)
    (hstep : ∀ acc x, x ∈ l → P acc → P (step acc x)) :
    ∀ init, P init → P (l.foldl step init) := by
  induction l with
  | nil => intro init h0; exact h0
  | cons x xs ih =>
    intro init h0
    exact ih (fun acc y hy h => hstep acc y (by simp [hy]) h) (step init x)
      (hstep init x (by simp) h0)

lemma edgesOk_relTargetFold (now dt t : String)
    (ht : t = "links_to" ∨ t = "has_child_table" ∨ ∃ f, t = "references_" ++ f)
    (targets : List String) (acc : Graph × Nat) (h : EdgesOk acc.1) :
    EdgesOk (relTargetFold now dt t acc targets).1 := by
  refine foldl_inv (fun acc => EdgesOk acc.1) _ targets ?_ acc h
  intro acc ld _ hok
  by_cases hc : acc.1.hasNode ld = true
  · simp only [hc, if_true]
    exact edgesOk_add_relationship_edge acc.1 dt ld t now ht hok
  · rw [if_neg hc]
    exact hok

lemma edgesOk_schemaEdgeStep (conn : Connector) (now : String) (acc : Graph × Nat)
    (dt : String) (h : EdgesOk acc.1) : EdgesOk (schemaEdgeStep conn now acc dt).1 := by
  have h1 := edgesOk_relTargetFold now dt "links_to" (Or.inl rfl)
    (discover_doctype_relationships conn dt).links_to acc h
  exact edgesOk_relTargetFold now dt "has_child_table" (Or.inr (Or.inl rfl))
    (discover_doctype_relationships conn dt).child_tables _ h1

lemma edgesOk_schemaNodePass (conn : Connector) (g : Graph) (dts : List String)
    (h : EdgesOk g) : EdgesOk (schemaNodePass conn g dts) := by
  intro e he
  rw [edges_schemaNodePass] at he
  exact h e he

lemma edgesOk_schema_build (conn : Connector) (now : String) (g : Graph)
    (h : EdgesOk g) : EdgesOk (build_doctype_schema_graph conn now g).1 := by
  rw [build_doctype_schema_graph]
  cases hc : conn.connected
  · simpa using h
  · cases hd : conn.doctypes.isEmpty
    · simp only [hd, Bool.not_true, Bool.false_eq_true, if_false, if_true]
      refine foldl_inv (fun acc : Graph × Nat => EdgesOk acc.1) _ conn.doctypes ?_ _
        (edgesOk_schemaNodePass conn g conn.doctypes h)
      intro acc dt _ hok
      exact edgesOk_schemaEdgeStep conn now acc dt hok
    · simpa [hd] using h

lemma edgesOk_docRefInner (now nid fname : String) (fval : PyVal)
    (dns : List (String × DocData)) (acc : Graph × Nat) (h : EdgesOk acc.1) :
    EdgesOk (docRefInner now nid fname fval dns acc).1 := by
  refine foldl_inv (fun acc => EdgesOk acc.1) _ dns ?_ acc h
  intro acc ond _ hok
  by_cases hc : (ond.1 != nid && (getAttr ond.2 "name" == some fval)) = true
  · simp only [hc, if_true]
    exact edgesOk_add_relationship_edge acc.1 nid ond.1 ("references_" ++ fname) now
      (Or.inr (Or.inr ⟨fname, rfl⟩)) hok
  · rw [if_neg hc]
    exact hok

lemma edgesOk_docRefFields (now : String) (dns : List (String × DocData))
    (nd : String × DocData) (acc : Graph × Nat) (h : EdgesOk acc.1) :
    EdgesOk (docRefFields now dns nd acc).1 := by
  refine foldl_inv (fun acc => EdgesOk acc.1) _ nd.2 ?_ acc h
  intro acc fv _ hok
  by_cases hc : fieldRefCandidate fv.2 = true
  · simp only [hc, if_true]
    exact edgesOk_docRefInner now nd.1 fv.1 fv.2 dns acc hok
  · rw [if_neg hc]
    exact hok

lemma edgesOk_docRefPass (now : String) (g : Graph)
    (dns : List (String × DocData)) (h : EdgesOk g) :
    EdgesOk (docRefPass now g dns).1 := by
  refine foldl_inv (fun acc => EdgesOk acc.1) _ dns ?_ (g, 0) h
  intro acc nd _ hok
  exact edgesOk_docRefFields now dns nd acc hok

lemma edgesOk_doc_build (conn : Connector) (doctype : String) (limit : Nat)
    (now : String) (g : Graph) (h : EdgesOk g) :
    EdgesOk (build_document_relationship_graph conn doctype limit now g).1 := by
  rw [build_document_relationship_graph]
  cases hne : (conn.sampleDocs doctype limit).isEmpty
  · simp only [hne, Bool.false_eq_true, if_false]
    exact edgesOk_docRefPass now _ _ (edgesOk_docNodePass doctype g _ h)
  · simpa [hne] using h

lemma edgesOk_runSteps (steps : List BuildStep) : EdgesOk (runSteps steps) := by
  refine foldl_inv EdgesOk runStep steps ?_ emptyGraph ?_
  · intro g s _ h
    cases s with
    | schemaBuild conn now => exact edgesOk_schema_build conn now g h
    | documentBuild conn doctype limit now =>
      exact edgesOk_doc_build conn doctype limit now g h
  · intro e he
    simp [emptyGraph] at he

lemma histCount_histAdd (h : List (PyVal × Nat)) (k q : PyVal) :
    histCount (histAdd h k) q = histCount h q + (if q = k then 1 else 0) := by
  induction h with
  | nil =>
    by_cases hq : q = k
    · simp [histAdd, histCount, hq]
    · have hkq : ¬(k = q) := fun hh => hq hh.symm
      simp [histAdd, histCount, hq, hkq]
  | cons p ps ih =>
    by_cases hp : p.1 = k
    · by_cases hq : p.1 = q
      · have hqk : q = k := by rw [← hq, hp]
        simp [histAdd, histCount, hp, hq, hqk]
      · have hkq : ¬(k = q) := fun hh => hq (hp.trans hh)
        have hqk : ¬(q = k) := fun hh => hkq hh.symm
        simp [histAdd, histCount, hp, hq, hkq, hqk]
    · by_cases hq : p.1 = q
      · have hqk : ¬(q = k) := fun hh => hp (hq.trans hh)
        simp [histAdd, histCount, hp, hq, hqk]
      · simp [histAdd, histCount, hp, hq, ih]

lemma mem_keys_histAdd (h : List (PyVal × Nat)) (k q : PyVal) :
    q ∈ (histAdd h k).map Prod.fst ↔ (q ∈ h.map Prod.fst ∨ q = k) := by
  induction h with
  | nil => simp [histAdd]
  | cons p ps ih =>
    by_cases hp : p.1 = k
    · rw [← hp]
      simp [histAdd, hp]
      tauto
    · simp [histAdd, hp, ih]
      tauto

lemma histCount_relTypeFold (l : List Edge) (k : PyVal) :
    ∀ h0, histCount (l.foldl (fun h e => histAdd h (relTypeKey e)) h0) k
      = histCount h0 k + l.countP (fun e => relTypeKey e == k) := by
  induction l with
  | nil => intro h0; simp
  | cons e es ih =>
    intro h0
    rw [List.foldl_cons, ih (histAdd h0 (relTypeKey e)), histCount_histAdd,
      List.countP_cons]
    by_cases hk : relTypeKey e = k
    · simp [hk]
      omega
    · have hkk : ¬(k = relTypeKey e) := fun hh => hk hh.symm
      simp [hk, hkk]

lemma mem_keys_relTypeFold (l : List Edge) (k : PyVal) :
    ∀ h0, k ∈ ((l.foldl (fun h e => histAdd h (relTypeKey e)) h0).map Prod.fst)
      ↔ (k ∈ h0.map Prod.fst ∨ ∃ e ∈ l, relTypeKey e = k) := by
  induction l with
  | nil => intro h0; simp
  | cons e es ih =>
    intro h0
    rw [List.foldl_cons, ih (histAdd h0 (relTypeKey e)), mem_keys_histAdd]
    constructor
    · rintro ((h | h) | h)
      · exact Or.inl h
      · exact Or.inr ⟨e, by simp, h.symm⟩
      · obtain ⟨x, hx, hxx⟩ := h
        exact Or.inr ⟨x, by simp [hx], hxx⟩
    · rintro (h | ⟨x, hx, hxx⟩)
      · exact Or.inl (Or.inl h)
      · rcases List.mem_cons.mp hx with rfl | hmem
        · exact Or.inl (Or.inr hxx.symm)
        · exact Or.inr ⟨x, hmem, hxx⟩

lemma relTypeKey_of_edgeOk (e : Edge) (h : edgeOk e) :
    relTypeKey e = PyVal.str "unknown" ∨
    ∃ t, relTypeKey e = PyVal.str t ∧
      (t = "links_to" ∨ t = "has_child_table" ∨ ∃ f, t = "references_" ++ f) := by
  rcases h with ⟨h1, _⟩ | ⟨_, t, h2, ht⟩
  · left
    simp [relTypeKey, h1]
  · right
    exact ⟨t, by simp [relTypeKey, h2], ht⟩

lemma references_ne_instance_of (f : String) : "references_" ++ f ≠ "instance_of" := by
  intro h
  have hd := congrArg String.data h
  rw [String.data_append] at hd
  rw [show ("references_" : String).data
      = ['r','e','f','e','r','e','n','c','e','s','_'] from rfl] at hd
  rw [show ("instance_of" : String).data
      = ['i','n','s','t','a','n','c','e','_','o','f'] from rfl] at hd
  simp at hd

lemma references_ne_unknown (f : String) : "references_" ++ f ≠ "unknown" := by
  intro h
  have hd := congrArg String.data h
  rw [String.data_append] at hd
  rw [show ("references_" : String).data
      = ['r','e','f','e','r','e','n','c','e','s','_'] from rfl] at hd
  rw [show ("unknown" : String).data = ['u','n','k','n','o','w','n'] from rfl] at hd
  simp at hd

/-- Claim C3: in every graph built through the builder's build
procedures, (a) every edge whose kind is stored under the `relationship`
attribute (the `instance_of` edges `add_document_node` creates) has no
`relationship_type` attribute, (b) the statistics histogram of
relationship types never contains an `instance_of` key, and (c) its
`unknown` bucket counts exactly the edges lacking a `relationship_type`
attribute — which is where every `instance_of` edge lands. -/
theorem claim_C3_instance_of_histogram (steps : List BuildStep) :
    (∀ e ∈ (runSteps steps).edges,
      getAttr e.attrs "relationship" = some (PyVal.str "instance_of") →
      getAttr e.attrs "relationship_type" = none) ∧
    PyVal.str "instance_of"
        ∉ (get_graph_statistics (runSteps steps)).relationship_types.map Prod.fst ∧
    histCount (get_graph_statistics (runSteps steps)).relationship_types
        (PyVal.str "unknown")
      = ((runSteps steps).edges.filter
          (fun e => (getAttr e.attrs "relationship_type").isNone)).length := by
  have hok := edgesOk_runSteps steps
  refine ⟨?_, ?_, ?_⟩
  · intro e he hrel
    rcases hok e he with ⟨h1, _⟩ | ⟨h2, _⟩
    · exact h1
    · rw [hrel] at h2
      cases h2
  · intro hmem
    have hmem2 : PyVal.str "instance_of" ∈ (((runSteps steps).edges.foldl
        (fun h e => histAdd h (relTypeKey e)) []).map Prod.fst) := hmem
    rw [mem_keys_relTypeFold] at hmem2
    rcases hmem2 with h | ⟨e, he, hkey⟩
    · simp at h
    · rcases relTypeKey_of_edgeOk e (hok e he) with h1 | ⟨t, h2, ht⟩
      · rw [h1] at hkey
        exact absurd hkey (by decide)
      · rw [h2] at hkey
        have htt : t = "instance_of" := by
          simpa [PyVal.str.injEq] using hkey
        rcases ht with rfl | rfl | ⟨f, rfl⟩
        · exact absurd htt (by decide)
        · exact absurd htt (by decide)
        · exact references_ne_instance_of f htt
  · have hcnt : histCount ((runSteps steps).edges.foldl
        (fun h e => histAdd h (relTypeKey e)) []) (PyVal.str "unknown")
        = (runSteps steps).edges.countP
            (fun e => relTypeKey e == PyVal.str "unknown") := by
      rw [histCount_relTypeFold]
      simp [histCount]
    have hpt : ∀ e ∈ (runSteps steps).edges,
        (relTypeKey e == PyVal.str "unknown") = true
          ↔ (getAttr e.attrs "relationship_type").isNone = true := by
      intro e he
      rcases hok e he with ⟨h1, _⟩ | ⟨_, t, h2, ht⟩
      · simp [relTypeKey, h1]
      · have hne : ¬(t = "unknown") := by
          rcases ht with rfl | rfl | ⟨f, rfl⟩
          · decide
          · decide
          · exact references_ne_unknown f
        simp [relTypeKey, h2, hne]
    show histCount ((runSteps steps).edges.foldl
        (fun h e => histAdd h (relTypeKey e)) []) (PyVal.str "unknown") = _
    rw [hcnt, List.countP_congr hpt, List.countP_eq_length_filter]


/-- Claim C3 witness: in the concrete witness build, the `instance_of`
edge of record `A1` has no `relationship_type` attribute, `instance_of`
is absent from the histogram keys, and the `unknown` bucket counts the
attribute-less edges. -/
theorem claim_C3_instance_of_histogram_witness :
    getAttr (Edge.mk "Sales Order::A1" "Sales Order"
        [("relationship", PyVal.str "instance_of")]).attrs "relationship_type" = none ∧
    PyVal.str "instance_of"
        ∉ (get_graph_statistics (runSteps stepsW)).relationship_types.map Prod.fst ∧
    histCount (get_graph_statistics (runSteps stepsW)).relationship_types
        (PyVal.str "unknown")
      = ((runSteps stepsW).edges.filter
          (fun e => (getAttr e.attrs "relationship_type").isNone)).length :=
  ⟨(claim_C3_instance_of_histogram stepsW).1
      (Edge.mk "Sales Order::A1" "Sales Order"
        [("relationship", PyVal.str "instance_of")]) (by decide) (by decide),
   (claim_C3_instance_of_histogram stepsW).2.1,
   (claim_C3_instance_of_histogram stepsW).2.2⟩

/-- Claim C10: every format outside the three supported ones makes
`export_graph` fail with the unsupported-format error (nothing is
written), while each supported format yields the output path embedding
the build timestamp. -/
theorem claim_C10_export (g : Graph) (dir ts fmt : String)
    (h1 : fmt ≠ "json") (h2 : fmt ≠ "graphml") (h3 : fmt ≠ "gexf") :
    export_graph g dir ts fmt = .error ("Unsupported format: " ++ fmt) ∧
    (∀ f, f = "json" ∨ f = "graphml" ∨ f = "gexf" →
      export_graph g dir ts f
        = .ok (dir ++ "/" ++ ("erpnext_knowledge_graph_" ++ ts ++ "." ++ f))) := by
  constructor
  · simp [export_graph, h1, h2, h3]
  · rintro f (rfl | rfl | rfl) <;> simp [export_graph]

/-- Claim C10 witness: `"csv"` is rejected with the unsupported-format
error and `"json"` yields the timestamped path. -/
theorem claim_C10_export_witness :
    export_graph emptyGraph "out" "20240101_120000" "csv"
        = .error ("Unsupported format: " ++ "csv") ∧
    export_graph emptyGraph "out" "20240101_120000" "json"
        = .ok ("out" ++ "/" ++ ("erpnext_knowledge_graph_" ++ "20240101_120000" ++ ".json")) :=
  ⟨(claim_C10_export emptyGraph "out" "20240101_120000" "csv"
      (by decide) (by decide) (by decide)).1,
   (claim_C10_export emptyGraph "out" "20240101_120000" "csv"
      (by decide) (by decide) (by decide)).2 "json" (Or.inl rfl)⟩

end ERPNextKG
